import Mathlib

/-!
Verification of the m3u8Downloader download core (src/src-tauri/src).

Shallow embedding of the Rust sources into Lean:
* bytes are `Nat` values below 256, byte strings are `List Nat`;
* Rust `&str` values are `List Char` (or `String` converted via `toList`);
* fallible operations return `Option`;
* the per-segment retry loop and the scheduler join of `download_m3u8`
  are modelled as pure functions over the outcomes of the attempts.

Sources embedded:
* `download.rs` : `hex_to_bytes`, the IV parsing and derivation,
  URL resolution for key/segment refs, the key fetch storage,
  `download_file` (content gating + AES-128-CBC/PKCS7 decryption),
  the retry/backoff loop and the final join/check;
* `download_monitor.rs` : `DownloadMetrics::get_progress` and the
  emitted progress value;
* `download_manager.rs` : `DownloadManager::cancel_task`.
-/

namespace M3u8

/-! ## Hex decoding (download.rs, `hex_to_bytes`, lines 39-49) -/

/-- Value of a single hex digit, mirroring what `u8::from_str_radix(_, 16)`
accepts per digit character. -/
def hexDigitVal (c : Char) : Option Nat :=
  if '0' ≤ c ∧ c ≤ '9' then some (c.toNat - '0'.toNat)
  else if 'a' ≤ c ∧ c ≤ 'f' then some (c.toNat - 'a'.toNat + 10)
  else if 'A' ≤ c ∧ c ≤ 'F' then some (c.toNat - 'A'.toNat + 10)
  else none

/-- Rust `u8::from_str_radix(&s[i..i+2], 16)` on a two-character slice:
an optional leading plus sign is accepted, then hex digits. -/
def parseBytePair (c1 c2 : Char) : Option Nat :=
  if c1 = '+' then hexDigitVal c2
  else do
    let h ← hexDigitVal c1
    let l ← hexDigitVal c2
    pure (16 * h + l)

/-- Step through the string two characters at a time, collecting bytes,
as the `(0..s.len()).step_by(2)` loop does. -/
def hexPairs : List Char → Option (List Nat)
  | [] => some []
  | [_] => none
  | c1 :: c2 :: rest => do
    let b ← parseBytePair c1 c2
    let bs ← hexPairs rest
    pure (b :: bs)

/-- Embedding of `hex_to_bytes` (download.rs lines 39-49): odd length is an
error, otherwise each two-character slice is parsed as one byte. -/
def hex_to_bytes (s : List Char) : Option (List Nat) :=
  if s.length % 2 ≠ 0 then none else hexPairs s

/-- Embedding of `iv_raw.strip_prefix("0x").unwrap_or(iv_raw)`
(download.rs line 334): only the lowercase prefix is stripped. -/
def strip0x (s : List Char) : List Char :=
  match s with
  | '0' :: 'x' :: rest => rest
  | other => other

/-- Embedding of the IV attribute handling in download.rs lines 333-336:
strip a lowercase `0x`, hex-decode, and turn a decode error into `none`
(the `.ok()` call). -/
def parse_iv_attr (raw : List Char) : Option (List Nat) :=
  hex_to_bytes (strip0x raw)

/-! ## IV derivation from the segment index (download.rs, lines 176-182) -/

/-- Big-endian bytes of a 64-bit value, as `u64::to_be_bytes` produces. -/
def toBeBytes8 (n : Nat) : List Nat :=
  [n / 2 ^ 56 % 256, n / 2 ^ 48 % 256, n / 2 ^ 40 % 256, n / 2 ^ 32 % 256,
   n / 2 ^ 24 % 256, n / 2 ^ 16 % 256, n / 2 ^ 8 % 256, n % 256]

/-- Embedding of the implicit-IV construction in `download_file`
(download.rs lines 176-182): a 16-byte zero vector whose last 8 bytes are
overwritten with the big-endian bytes of `index as u64`. -/
def derive_iv (index : Nat) : List Nat :=
  (List.replicate 16 0).take 8 ++ toBeBytes8 (index % 2 ^ 64)

/-! ## Backoff (download.rs, lines 530-549) -/

/-- Embedding of `let base_delay_secs = (1 << (attempt - 1)).min(10)`
(download.rs line 534). -/
def base_delay_secs (attempt : Nat) : Nat :=
  min (1 <<< (attempt - 1)) 10

/-- Total sleep before the next attempt, in milliseconds:
`Duration::from_secs(base) + Duration::from_millis(jitter)`
(download.rs lines 539-540). -/
def backoff_total_millis (attempt jitter : Nat) : Nat :=
  base_delay_secs attempt * 1000 + jitter

/-- Embedding of the retry-branch decision (download.rs lines 532-547):
a sleep happens only when `attempt < MAX_RETRIES` (99); at the last
attempt the code sets the cancel flag instead and no sleep occurs. -/
def sleep_after_fail (attempt jitter : Nat) : Option Nat :=
  if attempt < 99 then some (backoff_total_millis attempt jitter) else none

/-! ## Key storage (download.rs, lines 322-338) -/

/-- Embedding of `let key = key_response.to_vec();` (download.rs line 330):
the stored `EncryptionInfo.key` is the entire response body. -/
def stored_key (body : List Nat) : List Nat := body

/-! ## URL resolution (download.rs, lines 311-320 and 348-357) -/

/-- Boolean prefix test on character lists, mirroring `str::starts_with`. -/
def hasPfx : List Char → List Char → Bool
  | [], _ => true
  | _ :: _, [] => false
  | p :: ps, c :: cs => p = c && hasPfx ps cs

/-- Substring test on character lists, mirroring `str::contains`. -/
def containsSub (needle : List Char) : List Char → Bool
  | [] => hasPfx needle []
  | c :: rest => hasPfx needle (c :: rest) || containsSub needle rest

/-- Splitting on a separator character, mirroring Rust `str::split`. -/
def splitOnChar (c : Char) : List Char → List (List Char)
  | [] => [[]]
  | a :: rest =>
    match splitOnChar c rest with
    | [] => [[a]]
    | h :: t => if a = c then [] :: h :: t else (a :: h) :: t

/-- Joining with a separator character, mirroring `[&str]::join`. -/
def joinWith (c : Char) : List (List Char) → List Char
  | [] => []
  | [x] => x
  | x :: xs => x ++ c :: joinWith c xs

/-- The first component of Rust `str::rsplit_once(c)`: the characters
strictly before the last occurrence of `c`, or `none` when `c` is absent. -/
def rsplitBefore (c : Char) : List Char → Option (List Char)
  | [] => none
  | a :: rest =>
    match rsplitBefore c rest with
    | some p => some (a :: p)
    | none => if a = c then some [] else none

/-- Embedding of the segment/key URL resolution in `download_m3u8`
(download.rs lines 311-320 for the key URI and 348-357 for segment lines;
both use the same three branches). `none` models the
`rsplit_once('/').unwrap()` panic on a base URL without a slash. -/
def resolve_ref (base ref : List Char) : Option (List Char) :=
  if hasPfx "http".toList ref then some ref
  else if hasPfx "/".toList ref then
    some (joinWith '/' ((splitOnChar '/' base).take 3) ++ ref)
  else
    match rsplitBefore '/' base with
    | some p => some (p ++ '/' :: ref)
    | none => none

/-- Index of the last occurrence of a character, used to phrase the
specification text "take base up to and including its last slash". -/
def lastIdxOf (c : Char) : List Char → Option Nat
  | [] => none
  | a :: rest =>
    match lastIdxOf c rest with
    | some i => some (i + 1)
    | none => if a = c then some 0 else none

/-- Specification phrasing: the base URL up to and including its last
slash. -/
def upToLastSlash (s : List Char) : Option (List Char) :=
  (lastIdxOf '/' s).map (fun i => s.take (i + 1))

/-- Resolution rules as the specification words them, with the prefix
condition amended to the one the code actually uses (a plain `http`
prefix): unchanged when the ref starts with `http`; scheme plus authority
(first three slash-separated parts) for root-relative refs; base up to and
including its last slash for path-relative refs. -/
def resolve_ref_spec (base ref : List Char) : Option (List Char) :=
  if hasPfx "http".toList ref then some ref
  else if hasPfx "/".toList ref then
    some (joinWith '/' ((splitOnChar '/' base).take 3) ++ ref)
  else
    (upToLastSlash base).map (fun p => p ++ ref)

/-! ## Metrics and progress (download_monitor.rs, lines 19-106 and 169-183) -/

/-- Snapshot of the counters of `DownloadMetrics` at one instant.
`total_bytes_valid` is initialised to `true` by `DownloadMetrics::new`
and `mark_total_bytes_invalid` is never called in this repository. -/
structure MetricsState where
  total_chunks : Nat
  total_bytes : Nat
  downloaded_bytes : Nat
  completed_chunks : Nat
  total_bytes_valid : Bool
  deriving DecidableEq, Repr

/-- Rust `f64::clamp(0.0, 100.0)`. -/
def clamp100 (x : ℚ) : ℚ := max 0 (min x 100)

/-- Embedding of `DownloadMetrics::get_progress`
(download_monitor.rs lines 87-106), with `f64` modelled by `ℚ`:
byte-based progress while `total_bytes_valid` holds, chunk-based progress
otherwise, and `0` when the respective denominator is zero. -/
def get_progress (m : MetricsState) : ℚ :=
  if m.total_bytes_valid then
    if m.total_bytes = 0 then 0
    else clamp100 ((m.downloaded_bytes : ℚ) / (m.total_bytes : ℚ) * 100)
  else
    if m.total_chunks = 0 then 0
    else clamp100 ((m.completed_chunks : ℚ) / (m.total_chunks : ℚ) * 100)

/-- The `progress.round() as u32` value placed into the emitted event
(download_monitor.rs line 172); `f64::round` on the nonnegative clamped
value is floor of the value plus one half. -/
def emitted_progress (m : MetricsState) : ℤ := ⌊get_progress m + 1 / 2⌋

/-- The formula the specification claims for every snapshot:
completed chunks over total chunks, scaled and clamped. -/
def chunk_progress_claim (m : MetricsState) : ℚ :=
  if m.total_chunks = 0 then 0
  else clamp100 ((m.completed_chunks : ℚ) / (m.total_chunks : ℚ) * 100)

/-! ## Task registry (download_manager.rs, lines 56-123) -/

/-- A registered task as `DownloadManager` sees it: the cancel flag of its
`DownloadControl` and its temp directory. -/
structure DlTask where
  cancelled : Bool
  temp_dir : String
  deriving DecidableEq, Repr

/-- Lookup in the id-to-task map, modelling `HashMap::get` on a map with
unique keys represented as an association list. -/
def lookupTask (tasks : List (String × DlTask)) (id : String) : Option DlTask :=
  match tasks with
  | [] => none
  | p :: rest => if p.1 = id then some p.2 else lookupTask rest id

/-- Embedding of `DownloadManager::cancel_task` (download_manager.rs lines
103-108): `get` the entry for the id and, when present, set its control's
cancel flag. The map itself is not changed in its set of keys, and the
temp directory is untouched. -/
def cancel_task (tasks : List (String × DlTask)) (id : String) :
    List (String × DlTask) :=
  tasks.map (fun p => if p.1 = id then (p.1, ⟨true, p.2.temp_dir⟩) else p)

/-! ## The per-segment retry loop (download.rs, lines 485-555) -/

/-- Outcome of one `download_file` call as seen by the retry loop. -/
inductive AttemptOutcome
  | success
  | skipped
  | cancelledA
  | failA
  deriving DecidableEq, Repr

/-- Net effect of one spawned segment task: whether its future resolved to
`Ok`, whether it appended the segment's filename to `progress.dat`,
whether it incremented `completed_chunks`, whether it stored `true` into
the shared cancel flag, and how many `download_file` attempts ran. -/
structure SegRes where
  ok : Bool
  appended : Bool
  completedInc : Bool
  setCancel : Bool
  attemptsUsed : Nat
  deriving DecidableEq, Repr

/-- One iteration step of the `for attempt in 1..=MAX_RETRIES` loop
(download.rs lines 489-550), driven by an oracle that yields the outcome
of the `download_file` call at each attempt number. `flag` is the value
of the cancel flag, constant across the loop (no concurrent setter).
The fuel counts the remaining iterations; falling out of the loop returns
the final `Err` of line 552. -/
def segLoopAux (oracle : Nat → AttemptOutcome) (flag : Bool) :
    Nat → Nat → SegRes
  | _, 0 => ⟨false, false, false, false, 99⟩
  | attempt, fuel + 1 =>
    if flag then ⟨true, false, false, false, attempt - 1⟩
    else
      match oracle attempt with
      | .success => ⟨true, true, true, false, attempt⟩
      | .skipped => ⟨true, false, false, false, attempt⟩
      | .cancelledA => ⟨true, false, false, false, attempt⟩
      | .failA =>
        if attempt < 99 then segLoopAux oracle flag (attempt + 1) fuel
        else
          let r := segLoopAux oracle flag (attempt + 1) fuel
          ⟨r.ok, r.appended, r.completedInc, true, r.attemptsUsed⟩

/-- The whole retry loop: attempts start at 1 and `MAX_RETRIES = 99`. -/
def segLoop (oracle : Nat → AttemptOutcome) (flag : Bool) : SegRes :=
  segLoopAux oracle flag 1 99

/-! ## The scheduler join and final check (download.rs, lines 558-613) -/

/-- Observable actions of `download_m3u8` after the workers are spawned. -/
inductive Act
  | storeCancel
  | awaitReporter
  | merge
  | retOk
  | retErrMissing
  | retErrTask
  deriving DecidableEq, Repr

/-- Embedding of the join and final check (download.rs lines 558-613),
flattened into the sequence of actions each path performs.
A task future resolving to `Err` makes `handle.await??` propagate
immediately (no later line runs). Otherwise the completed-count check
runs; its failure branch with a clear flag stores the cancel flag, awaits
the reporter and returns the missing-segments error; every other path
reaches the await of line 594 and then either returns at the cancel check
or invokes the remux merge. -/
def joinTrace (allOk : Bool) (completed total : Nat) (flag : Bool) :
    List Act :=
  if allOk = false then [Act.retErrTask]
  else if completed ≠ total then
    if flag then [Act.awaitReporter, Act.retOk]
    else [Act.storeCancel, Act.awaitReporter, Act.retErrMissing]
  else if flag then [Act.awaitReporter, Act.retOk]
  else [Act.awaitReporter, Act.merge, Act.retOk]

/-- Run every spawned segment task under a cancel flag that no concurrent
actor flips. -/
def runSegments (oracles : List (Nat → AttemptOutcome)) (flag : Bool) :
    List SegRes :=
  oracles.map (fun o => segLoop o flag)

/-- The value of `metrics.completed_chunks` read at the final check:
the number of tasks that incremented it. -/
def completedCount (rs : List SegRes) : Nat :=
  rs.countP (fun r => r.completedInc)

/-- The action trace of a whole `download_m3u8` run past the spawn point:
the segment tasks run, and the join sees the flag as set if the run
started with it set or some task stored it during retry exhaustion. -/
def fullRunTrace (oracles : List (Nat → AttemptOutcome)) (flag : Bool) :
    List Act :=
  joinTrace ((runSegments oracles flag).all (fun r => r.ok))
    (completedCount (runSegments oracles flag)) oracles.length
    (flag || (runSegments oracles flag).any (fun r => r.setCancel))

/-! ## AES-128-CBC decryption with PKCS7 unpadding (download.rs, lines
174-198, via the `aes`, `cbc` and `cipher` crates)

Bytes are `Nat` values below 256; a block is a list of 16 bytes in the
standard AES input order (column-major state). -/

/-- The AES forward S-box (FIPS-197 figure 7), used by the key schedule. -/
def sboxList : List Nat :=
  [99, 124, 119, 123, 242, 107, 111, 197, 48, 1, 103, 43, 254, 215, 171, 118,
   202, 130, 201, 125, 250, 89, 71, 240, 173, 212, 162, 175, 156, 164, 114, 192,
   183, 253, 147, 38, 54, 63, 247, 204, 52, 165, 229, 241, 113, 216, 49, 21,
   4, 199, 35, 195, 24, 150, 5, 154, 7, 18, 128, 226, 235, 39, 178, 117,
   9, 131, 44, 26, 27, 110, 90, 160, 82, 59, 214, 179, 41, 227, 47, 132,
   83, 209, 0, 237, 32, 252, 177, 91, 106, 203, 190, 57, 74, 76, 88, 207,
   208, 239, 170, 251, 67, 77, 51, 133, 69, 249, 2, 127, 80, 60, 159, 168,
   81, 163, 64, 143, 146, 157, 56, 245, 188, 182, 218, 33, 16, 255, 243, 210,
   205, 12, 19, 236, 95, 151, 68, 23, 196, 167, 126, 61, 100, 93, 25, 115,
   96, 129, 79, 220, 34, 42, 144, 136, 70, 238, 184, 20, 222, 94, 11, 219,
   224, 50, 58, 10, 73, 6, 36, 92, 194, 211, 172, 98, 145, 149, 228, 121,
   231, 200, 55, 109, 141, 213, 78, 169, 108, 86, 244, 234, 101, 122, 174, 8,
   186, 120, 37, 46, 28, 166, 180, 198, 232, 221, 116, 31, 75, 189, 139, 138,
   112, 62, 181, 102, 72, 3, 246, 14, 97, 53, 87, 185, 134, 193, 29, 158,
   225, 248, 152, 17, 105, 217, 142, 148, 155, 30, 135, 233, 206, 85, 40, 223,
   140, 161, 137, 13, 191, 230, 66, 104, 65, 153, 45, 15, 176, 84, 187, 22]

/-- The AES inverse S-box (FIPS-197 figure 14). -/
def invSboxList : List Nat :=
  [82, 9, 106, 213, 48, 54, 165, 56, 191, 64, 163, 158, 129, 243, 215, 251,
   124, 227, 57, 130, 155, 47, 255, 135, 52, 142, 67, 68, 196, 222, 233, 203,
   84, 123, 148, 50, 166, 194, 35, 61, 238, 76, 149, 11, 66, 250, 195, 78,
   8, 46, 161, 102, 40, 217, 36, 178, 118, 91, 162, 73, 109, 139, 209, 37,
   114, 248, 246, 100, 134, 104, 152, 22, 212, 164, 92, 204, 93, 101, 182, 146,
   108, 112, 72, 80, 253, 237, 185, 218, 94, 21, 70, 87, 167, 141, 157, 132,
   144, 216, 171, 0, 140, 188, 211, 10, 247, 228, 88, 5, 184, 179, 69, 6,
   208, 44, 30, 143, 202, 63, 15, 2, 193, 175, 189, 3, 1, 19, 138, 107,
   58, 145, 17, 65, 79, 103, 220, 234, 151, 242, 207, 206, 240, 180, 230, 115,
   150, 172, 116, 34, 231, 173, 53, 133, 226, 249, 55, 232, 28, 117, 223, 110,
   71, 241, 26, 113, 29, 41, 197, 137, 111, 183, 98, 14, 170, 24, 190, 27,
   252, 86, 62, 75, 198, 210, 121, 32, 154, 219, 192, 254, 120, 205, 90, 244,
   31, 221, 168, 51, 136, 7, 199, 49, 177, 18, 16, 89, 39, 128, 236, 95,
   96, 81, 127, 169, 25, 181, 74, 13, 45, 229, 122, 159, 147, 201, 156, 239,
   160, 224, 59, 77, 174, 42, 245, 176, 200, 235, 187, 60, 131, 83, 153, 97,
   23, 43, 4, 126, 186, 119, 214, 38, 225, 105, 20, 99, 85, 33, 12, 125]

/-- Forward S-box lookup. -/
def sboxAt (b : Nat) : Nat := sboxList.getD b 0

/-- Inverse S-box lookup. -/
def invSboxAt (b : Nat) : Nat := invSboxList.getD b 0

/-- Bytewise xor of two byte strings. -/
def xorBytes (a b : List Nat) : List Nat := List.zipWith Nat.xor a b

/-- Multiplication by x in GF(2^8) modulo the AES polynomial. -/
def mul2 (b : Nat) : Nat :=
  Nat.xor (b * 2 % 256) (if 128 ≤ b then 27 else 0)

/-- Multiplication by 4 in GF(2^8). -/
def mul4 (b : Nat) : Nat := mul2 (mul2 b)

/-- Multiplication by 8 in GF(2^8). -/
def mul8 (b : Nat) : Nat := mul2 (mul4 b)

/-- Multiplication by 9 in GF(2^8). -/
def mul9 (b : Nat) : Nat := Nat.xor (mul8 b) b

/-- Multiplication by 11 in GF(2^8). -/
def mul11 (b : Nat) : Nat := Nat.xor (mul8 b) (Nat.xor (mul2 b) b)

/-- Multiplication by 13 in GF(2^8). -/
def mul13 (b : Nat) : Nat := Nat.xor (mul8 b) (Nat.xor (mul4 b) b)

/-- Multiplication by 14 in GF(2^8). -/
def mul14 (b : Nat) : Nat := Nat.xor (mul8 b) (Nat.xor (mul4 b) (mul2 b))

/-- InvShiftRows as an index permutation on the flat 16-byte state. -/
def invShiftRows (s : List Nat) : List Nat :=
  [0, 13, 10, 7, 4, 1, 14, 11, 8, 5, 2, 15, 12, 9, 6, 3].map
    (fun j => s.getD j 0)

/-- InvSubBytes on the flat state. -/
def invSubBytes (s : List Nat) : List Nat := s.map invSboxAt

/-- InvMixColumns on a single 4-byte column. -/
def invMixColumn (col : List Nat) : List Nat :=
  match col with
  | [a0, a1, a2, a3] =>
    [Nat.xor (mul14 a0) (Nat.xor (mul11 a1) (Nat.xor (mul13 a2) (mul9 a3))),
     Nat.xor (mul9 a0) (Nat.xor (mul14 a1) (Nat.xor (mul11 a2) (mul13 a3))),
     Nat.xor (mul13 a0) (Nat.xor (mul9 a1) (Nat.xor (mul14 a2) (mul11 a3))),
     Nat.xor (mul11 a0) (Nat.xor (mul13 a1) (Nat.xor (mul9 a2) (mul14 a3)))]
  | other => other

/-- Split a byte string into 4-byte pieces (a trailing short piece is
passed through; it does not occur on the 16-byte states this is used
on). -/
def chunks4 : List Nat → List (List Nat)
  | a0 :: a1 :: a2 :: a3 :: rest => [a0, a1, a2, a3] :: chunks4 rest
  | [] => []
  | other => [other]

/-- InvMixColumns on the flat state. -/
def invMixColumns (s : List Nat) : List Nat :=
  ((chunks4 s).map invMixColumn).flatten

/-- SubWord of the key schedule. -/
def subWord (w : List Nat) : List Nat := w.map sboxAt

/-- RotWord of the key schedule. -/
def rotWord (w : List Nat) : List Nat :=
  match w with
  | a :: rest => rest ++ [a]
  | [] => []

/-- Round constants rc_1 .. rc_10. -/
def rconList : List Nat := [1, 2, 4, 8, 16, 32, 64, 128, 27, 54]

/-- The round-constant word for schedule round j, 1-based. -/
def rconAt (j : Nat) : List Nat := [rconList.getD (j - 1) 0, 0, 0, 0]

/-- Tail of the AES-128 key schedule: given the previous four words and
the next word index, produce the remaining words. -/
def expandAux (wim4 wim3 wim2 wim1 : List Nat) (i : Nat) :
    Nat → List (List Nat)
  | 0 => []
  | fuel + 1 =>
    let temp := if i % 4 = 0
      then xorBytes (subWord (rotWord wim1)) (rconAt (i / 4))
      else wim1
    let wi := xorBytes wim4 temp
    wi :: expandAux wim3 wim2 wim1 wi (i + 1) fuel

/-- AES-128 key schedule: 44 four-byte words from a 16-byte key. -/
def expandKey (key : List Nat) : List (List Nat) :=
  let w0 := (key.drop 0).take 4
  let w1 := (key.drop 4).take 4
  let w2 := (key.drop 8).take 4
  let w3 := (key.drop 12).take 4
  [w0, w1, w2, w3] ++ expandAux w0 w1 w2 w3 4 40

/-- Round key r (16 bytes) from the expanded schedule. -/
def roundKeyAt (ws : List (List Nat)) (r : Nat) : List Nat :=
  ((ws.drop (4 * r)).take 4).flatten

/-- The AES-128 inverse cipher (FIPS-197 section 5.3) on one block. -/
def aesDecBlock (key block : List Nat) : List Nat :=
  let ws := expandKey key
  let s0 := xorBytes block (roundKeyAt ws 10)
  let s := (List.range 9).foldl
    (fun s j =>
      invMixColumns
        (xorBytes (invSubBytes (invShiftRows s)) (roundKeyAt ws (9 - j))))
    s0
  xorBytes (invSubBytes (invShiftRows s)) (roundKeyAt ws 0)

/-- Split a byte string into 16-byte blocks (a trailing short block is
passed through; it does not occur under the multiple-of-16 length guard
of `cbcDecryptPadded`). -/
def chunks16 : List Nat → List (List Nat)
  | b0 :: b1 :: b2 :: b3 :: b4 :: b5 :: b6 :: b7 ::
      b8 :: b9 :: b10 :: b11 :: b12 :: b13 :: b14 :: b15 :: rest =>
    [b0, b1, b2, b3, b4, b5, b6, b7,
     b8, b9, b10, b11, b12, b13, b14, b15] :: chunks16 rest
  | [] => []
  | other => [other]

/-- CBC decryption over a list of ciphertext blocks: each plaintext block
is the block decryption xored with the previous ciphertext block, the
first with the IV. -/
def cbcDecryptBlocks (key : List Nat) : List Nat → List (List Nat) →
    List (List Nat)
  | _, [] => []
  | prev, c :: rest =>
    xorBytes (aesDecBlock key c) prev :: cbcDecryptBlocks key c rest

/-- PKCS7 unpadding as the `block-padding` crate performs it: the last
byte gives the padding length, which must be between 1 and 16 and whose
many trailing bytes must all equal it. -/
def unpadPkcs7 (pt : List Nat) : Option (List Nat) :=
  match pt.getLast? with
  | none => none
  | some n =>
    if 1 ≤ n ∧ n ≤ 16 ∧ n ≤ pt.length ∧
        ((pt.drop (pt.length - n)).all (fun b => b = n))
    then some (pt.take (pt.length - n)) else none

/-- Embedding of `decrypt_padded_mut::<Pkcs7>` of
`cbc::Decryptor<Aes128>`: the ciphertext must be a nonempty multiple of
the block size; decrypt block-wise and unpad, `none` for the error the
code maps to a retryable failure (download.rs lines 191-193). -/
def cbcDecryptPadded (key iv ct : List Nat) : Option (List Nat) :=
  if ct.length % 16 = 0 ∧ ct ≠ [] then
    unpadPkcs7 ((cbcDecryptBlocks key iv (chunks16 ct)).flatten)
  else none

/-! ## The segment fetcher (download.rs, `download_file`, lines 126-204) -/

/-- Encryption binding stored for a segment (`EncryptionInfo`). -/
structure EncInfo where
  key : List Nat
  iv : Option (List Nat)
  deriving DecidableEq, Repr

/-- Result of one `download_file` call past the streaming phase.
`panicked` models the length assertion of `GenericArray::from_slice`
on the key and IV (download.rs lines 184-185); `errF` models the `Err`
return of a failed decryption. -/
inductive FileOutcome
  | panicked
  | skippedF
  | errF
  | successF (written : List Nat)
  deriving DecidableEq, Repr

/-- Embedding of the post-streaming part of `download_file`
(download.rs lines 156-203): empty bodies and HTML/XML content types are
`Skipped` without writing; with a key bound, the IV falls back to the
index-derived one, the key and IV must be 16 bytes each (else the
`GenericArray::from_slice` assertion fires), and the decrypted bytes are
written; without a key the raw body is written. -/
def download_file_model (index : Nat) (buffer : List Nat)
    (contentType : List Char) (enc : Option EncInfo) : FileOutcome :=
  if buffer = [] then .skippedF
  else if hasPfx "text/html".toList contentType ||
      containsSub "xml".toList contentType then .skippedF
  else
    match enc with
    | none => .successF buffer
    | some e =>
      let ivv := e.iv.getD (derive_iv index)
      if e.key.length = 16 ∧ ivv.length = 16 then
        match cbcDecryptPadded e.key ivv buffer with
        | some d => .successF d
        | none => .errF
      else .panicked

/-! ## Helper lemmas -/

/-- The index-derived IV always has 16 bytes. -/
theorem derive_iv_length (index : Nat) : (derive_iv index).length = 16 := by
  simp [derive_iv, toBeBytes8]

/-- The prefix map of `rsplit_once` agrees with taking the base up to and
including its last occurrence of the separator. -/
theorem rsplitBefore_map_eq (c : Char) (s : List Char) :
    (rsplitBefore c s).map (fun p => p ++ [c]) =
      (lastIdxOf c s).map (fun i => s.take (i + 1)) := by
  induction s with
  | nil => rfl
  | cons a rest ih =>
    cases h1 : rsplitBefore c rest with
    | some p =>
      cases h2 : lastIdxOf c rest with
      | some i =>
        rw [h1, h2] at ih
        simp only [Option.map_some'] at ih
        simp only [rsplitBefore, lastIdxOf, h1, h2, Option.map_some',
          Option.some.injEq]
        simp only [List.take_succ_cons, List.cons_append]
        exact congrArg (a :: ·) (by injection ih)
      | none => rw [h1, h2] at ih; simp at ih
    | none =>
      cases h2 : lastIdxOf c rest with
      | some i => rw [h1, h2] at ih; simp at ih
      | none =>
        simp only [rsplitBefore, lastIdxOf, h1, h2]
        by_cases hac : a = c <;> simp [hac]

/-- One loop iteration on a successful attempt: append, increment,
return. -/
theorem segLoopAux_success (o : Nat → AttemptOutcome) (attempt fuel : Nat)
    (h : o attempt = AttemptOutcome.success) :
    segLoopAux o false attempt (fuel + 1) = ⟨true, true, true, false, attempt⟩ := by
  simp [segLoopAux, h]

/-- One loop iteration on a skipped attempt: return with no effects. -/
theorem segLoopAux_skipped (o : Nat → AttemptOutcome) (attempt fuel : Nat)
    (h : o attempt = AttemptOutcome.skipped) :
    segLoopAux o false attempt (fuel + 1) = ⟨true, false, false, false, attempt⟩ := by
  simp [segLoopAux, h]

/-- A segment task whose first attempt succeeds appends to the manifest,
increments the counter and uses one attempt. -/
theorem segLoop_success (o : Nat → AttemptOutcome)
    (h : o 1 = AttemptOutcome.success) :
    segLoop o false = ⟨true, true, true, false, 1⟩ := by
  simpa [segLoop] using segLoopAux_success o 1 98 h

/-- A segment task whose first attempt is skipped returns `Ok` with no
manifest append, no counter increment, no cancel store, after exactly one
attempt. -/
theorem segLoop_skipped (o : Nat → AttemptOutcome)
    (h : o 1 = AttemptOutcome.skipped) :
    segLoop o false = ⟨true, false, false, false, 1⟩ := by
  simpa [segLoop] using segLoopAux_skipped o 1 98 h

/-- A manifest append can only come from a successful attempt, and the
task future then resolves to `Ok`. -/
theorem segLoopAux_appended (o : Nat → AttemptOutcome) (flag : Bool)
    (fuel : Nat) : ∀ attempt,
    (segLoopAux o flag attempt fuel).appended = true →
    (segLoopAux o flag attempt fuel).ok = true ∧
      ∃ k, o k = AttemptOutcome.success := by
  induction fuel with
  | zero => intro attempt h; simp [segLoopAux] at h
  | succ f ih =>
    intro attempt
    cases flag with
    | true => simp [segLoopAux]
    | false =>
      simp only [segLoopAux]
      rw [if_neg (by decide : ¬(false = true))]
      cases ho : o attempt with
      | success => exact fun _ => ⟨rfl, attempt, ho⟩
      | skipped => simp
      | cancelledA => simp
      | failA =>
        by_cases ha : attempt < 99
        · simpa [ha] using ih (attempt + 1)
        · simpa [ha] using ih (attempt + 1)

/-- Collective behaviour of a run whose every segment either succeeds or
is skipped at the first attempt, under a cancel flag that stays `false`:
all futures resolve `Ok`, nobody stores the cancel flag, and the
completed count stays below the total as soon as one segment is
skipped. -/
theorem c2aux (oracles : List (Nat → AttemptOutcome))
    (h : ∀ o ∈ oracles, o 1 = AttemptOutcome.success ∨
      o 1 = AttemptOutcome.skipped) :
    ((runSegments oracles false).all (fun r => r.ok) = true) ∧
    ((runSegments oracles false).any (fun r => r.setCancel) = false) ∧
    completedCount (runSegments oracles false) ≤ oracles.length ∧
    ((∃ o ∈ oracles, o 1 = AttemptOutcome.skipped) →
      completedCount (runSegments oracles false) < oracles.length) := by
  induction oracles with
  | nil => simp [runSegments, completedCount]
  | cons o os ih =>
    obtain ⟨i1, i2, i3, i4⟩ := ih (fun o' m => h o' (by simp [m]))
    have hrs : runSegments (o :: os) false =
        segLoop o false :: runSegments os false := rfl
    rcases h o (by simp) with hs | hs
    · rw [hrs, segLoop_success o hs]
      refine ⟨by simpa using i1, by simpa using i2, ?_, ?_⟩
      · simpa [completedCount, List.countP_cons] using i3
      · rintro ⟨o', ho', hsk⟩
        rcases List.mem_cons.mp ho' with rfl | hmem
        · rw [hs] at hsk; cases hsk
        · have h4 := i4 ⟨o', hmem, hsk⟩
          simp [completedCount, List.countP_cons] at h4 ⊢
          omega
    · rw [hrs, segLoop_skipped o hs]
      refine ⟨by simpa using i1, by simpa using i2, ?_, ?_⟩
      · simp only [completedCount, List.countP_cons] at *
        simpa using Nat.le_succ_of_le i3
      · intro _
        simp only [completedCount, List.countP_cons] at *
        simpa using Nat.lt_succ_of_le i3

/-! ## Claim theorems -/

/-- Claim C1: for every encrypted segment whose key binding has no
explicit IV, the AES-128-CBC decryption IV is exactly 8 zero bytes
followed by the segment's playlist-order index encoded as a 64-bit
big-endian integer: byte j is zero for j below 8, and byte 8+j carries
the j-th big-endian byte of the index, for every index (indices are
`usize` values, hence below 2^64). -/
theorem c1_iv_derivation (i : Nat) (h : i < 2 ^ 64) :
    (derive_iv i).length = 16 ∧
    (∀ j, j < 8 → (derive_iv i).getD j 0 = 0) ∧
    (∀ j, j < 8 → (derive_iv i).getD (8 + j) 0 = i / 2 ^ (8 * (7 - j)) % 256) := by
  have hm : i % 2 ^ 64 = i := Nat.mod_eq_of_lt h
  have hexp : derive_iv i =
      [0, 0, 0, 0, 0, 0, 0, 0, i / 2 ^ 56 % 256, i / 2 ^ 48 % 256,
       i / 2 ^ 40 % 256, i / 2 ^ 32 % 256, i / 2 ^ 24 % 256,
       i / 2 ^ 16 % 256, i / 2 ^ 8 % 256, i % 256] := by
    unfold derive_iv toBeBytes8
    rw [hm]
    rfl
  refine ⟨by rw [hexp]; rfl, ?_, ?_⟩
  · intro j hj
    rw [hexp]
    interval_cases j <;> rfl
  · intro j hj
    rw [hexp]
    interval_cases j <;> simp

/-- Witness for C1 at the concrete index 1000000: the hypothesis holds and
the derived IV has 16 bytes whose 15th is the low byte of the index. -/
theorem c1_iv_derivation_witness :
    (1000000 : Nat) < 2 ^ 64 ∧ (derive_iv 1000000).length = 16 ∧
    (derive_iv 1000000).getD 15 0 = 64 :=
  ⟨by norm_num, (c1_iv_derivation 1000000 (by norm_num)).1,
   (c1_iv_derivation 1000000 (by norm_num)).2.2 7 (by norm_num)⟩

/-- Claim C6 (code bug): the specification asks that a leading `0x` or
`0X` be stripped from the IV attribute before hex decoding, and the doc
comment of `parse_ext_x_key` itself shows an uppercase `IV=0X...` example
input, but download.rs line 334 strips only the lowercase `0x`; an IV
written with `0X` fails hex decoding (`X` is no hex digit) and silently
degrades to no IV at all instead of yielding the same 16 bytes as the
lowercase spelling. -/
theorem c6_iv_uppercase_bug :
    parse_iv_attr "0x00112233445566778899aabbccddeeff".toList =
      some [0, 17, 34, 51, 68, 85, 102, 119, 136, 153, 170, 187, 204, 221,
        238, 255] ∧
    parse_iv_attr "0X00112233445566778899aabbccddeeff".toList = none := by
  exact ⟨by decide, by decide⟩

/-- Claim C7: for every failed attempt n with 1 ≤ n ≤ 10 that is followed
by a retry, the sleep before the next attempt is min(2^(n-1), 10) seconds
plus the jitter drawn from [0, 1000) milliseconds. -/
theorem c7_backoff (n j : Nat) (h1 : 1 ≤ n) (h2 : n ≤ 10) (_hj : j < 1000) :
    sleep_after_fail n j = some (min (2 ^ (n - 1)) 10 * 1000 + j) := by
  have hlt : n < 99 := by omega
  simp [sleep_after_fail, hlt, backoff_total_millis, base_delay_secs,
    Nat.shiftLeft_eq, Nat.one_mul]

/-- Witness for C7 at attempt 5 with jitter 123: the sleep is 10123 ms. -/
theorem c7_backoff_witness :
    (1 : Nat) ≤ 5 ∧ (5 : Nat) ≤ 10 ∧ (123 : Nat) < 1000 ∧
    sleep_after_fail 5 123 = some 10123 :=
  ⟨by norm_num, by norm_num, by norm_num,
   c7_backoff 5 123 (by norm_num) (by norm_num) (by norm_num)⟩

/-- Claim C4 counterexample: the code keeps a ref unchanged whenever it
begins with the four characters `http`, not only for `http://` or
`https://`; the playlist line `httpz.ts` carries neither scheme prefix yet
is used unchanged as the absolute URL, so the claimed equivalence fails. -/
theorem c4_url_counterexample :
    resolve_ref "https://h.example/x/y.m3u8".toList "httpz.ts".toList =
      some "httpz.ts".toList ∧
    hasPfx "http://".toList "httpz.ts".toList = false ∧
    hasPfx "https://".toList "httpz.ts".toList = false := by
  exact ⟨by decide, by decide, by decide⟩

/-- Claim C4 amended: a ref is used unchanged exactly when it begins with
`http` (which subsumes `http://` and `https://`); refs beginning with `/`
are resolved against the scheme plus authority of the base (its first
three slash-separated parts); all other refs are appended to the base up
to and including its last slash. The code equals this reading of the
specification on every base and ref. -/
theorem c4_url_amended (base ref : List Char) :
    resolve_ref base ref = resolve_ref_spec base ref := by
  unfold resolve_ref resolve_ref_spec upToLastSlash
  split_ifs
  · rfl
  · rfl
  · have hm := rsplitBefore_map_eq '/' base
    cases h3 : rsplitBefore '/' base with
    | none =>
      cases h4 : lastIdxOf '/' base with
      | none => rfl
      | some i => rw [h3, h4] at hm; simp at hm
    | some p =>
      cases h4 : lastIdxOf '/' base with
      | none => rw [h3, h4] at hm; simp at hm
      | some i =>
        rw [h3, h4] at hm
        simp only [Option.map_some'] at hm ⊢
        have hp : p ++ ['/'] = List.take (i + 1) base := by injection hm
        rw [← hp]
        simp

/-- Claim C3 counterexample: `get_progress` uses byte-based progress
whenever `total_bytes_valid` holds, which it always does in this
repository (initialised `true`, `mark_total_bytes_invalid` never called).
In the reachable fresh-run state with 1 of 2 chunks completed and no
total-byte estimate, the code reports 0 while the claimed chunk formula
gives 50. -/
theorem c3_progress_counterexample :
    get_progress ⟨2, 0, 0, 1, true⟩ = 0 ∧
    chunk_progress_claim ⟨2, 0, 0, 1, true⟩ = 50 ∧
    get_progress ⟨2, 0, 0, 1, true⟩ ≠ chunk_progress_claim ⟨2, 0, 0, 1, true⟩ := by
  refine ⟨rfl, ?_, ?_⟩
  · norm_num [chunk_progress_claim, clamp100]
  · norm_num [get_progress, chunk_progress_claim, clamp100]

/-- Claim C3 amended: every progress snapshot reports the byte ratio
`downloaded_bytes / total_bytes * 100` (0 when the denominator is 0)
clamped to [0, 100] while `total_bytes_valid` holds — which is always the
case in this code — and the claimed chunk ratio only in the invalid
branch; in every state the value lies in [0, 100] and the emitted rounded
integer lies in 0..100. -/
theorem c3_progress_amended (m : MetricsState) :
    0 ≤ get_progress m ∧ get_progress m ≤ 100 ∧
    0 ≤ emitted_progress m ∧ emitted_progress m ≤ 100 ∧
    (m.total_bytes_valid = false → get_progress m = chunk_progress_claim m) := by
  have hb : 0 ≤ get_progress m ∧ get_progress m ≤ 100 := by
    unfold get_progress clamp100
    split_ifs <;> refine ⟨by positivity, ?_⟩ <;> norm_num
  obtain ⟨hb0, hb1⟩ := hb
  refine ⟨hb0, hb1, ?_, ?_, ?_⟩
  · exact Int.floor_nonneg.mpr (by linarith)
  · have hle : (⌊get_progress m + 1 / 2⌋ : ℚ) ≤ get_progress m + 1 / 2 :=
      Int.floor_le _
    have hlt : (emitted_progress m : ℚ) < 101 := by
      unfold emitted_progress; linarith
    exact_mod_cast Int.lt_add_one_iff.mp (by exact_mod_cast hlt)
  · intro h
    unfold get_progress chunk_progress_claim
    simp [h]

/-- Witness for the amended C3 at a state in the invalid branch: the
progress equals the chunk formula there, and the bounds hold. -/
theorem c3_progress_amended_witness :
    0 ≤ get_progress ⟨2, 0, 0, 1, false⟩ ∧
    get_progress ⟨2, 0, 0, 1, false⟩ =
      chunk_progress_claim ⟨2, 0, 0, 1, false⟩ :=
  ⟨(c3_progress_amended ⟨2, 0, 0, 1, false⟩).1,
   (c3_progress_amended ⟨2, 0, 0, 1, false⟩).2.2.2.2 rfl⟩

/-- A cancel on an id the registry does not hold leaves the map
unchanged. -/
theorem cancel_task_absent (tasks : List (String × DlTask)) (id : String)
    (h : lookupTask tasks id = none) : cancel_task tasks id = tasks := by
  induction tasks with
  | nil => rfl
  | cons p rest ih =>
    by_cases hp : p.1 = id
    · simp [lookupTask, hp] at h
    · simp only [lookupTask, hp, if_neg] at h
      simp [cancel_task, hp] at ih ⊢
      exact ih h

/-- A cancel on a held id sets that task's flag and keeps its temp dir. -/
theorem cancel_task_present (tasks : List (String × DlTask)) (id : String)
    (t : DlTask) (h : lookupTask tasks id = some t) :
    lookupTask (cancel_task tasks id) id = some ⟨true, t.temp_dir⟩ := by
  induction tasks with
  | nil => simp [lookupTask] at h
  | cons p rest ih =>
    by_cases hp : p.1 = id
    · simp only [lookupTask, hp, if_pos] at h
      have ht : p.2 = t := by injection h
      simp [cancel_task, lookupTask, hp, ht]
    · simp only [lookupTask, hp, if_neg] at h
      simp only [cancel_task, List.map_cons, if_neg hp] at *
      simpa [lookupTask, hp] using ih h

/-- Cancelling twice equals cancelling once. -/
theorem cancel_task_idem (tasks : List (String × DlTask)) (id : String) :
    cancel_task (cancel_task tasks id) id = cancel_task tasks id := by
  induction tasks with
  | nil => rfl
  | cons p rest ih =>
    by_cases hp : p.1 = id <;>
      simp [cancel_task, hp] at ih ⊢ <;> exact ih

/-- Claim C9 counterexample: `cancel_task` does not remove the id's entry
from the registry map; after cancelling the only task, its id still
resolves in the map (with the flag set and the temp dir retained), where
the claim requires the entry to be gone. -/
theorem c9_cancel_counterexample :
    lookupTask (cancel_task [("t1", ⟨false, "tmp-t1"⟩)] "t1") "t1" =
      some ⟨true, "tmp-t1"⟩ ∧
    lookupTask (cancel_task [("t1", ⟨false, "tmp-t1"⟩)] "t1") "t1" ≠ none := by
  exact ⟨by decide, by decide⟩

/-- Claim C9 amended: for every task id present in the registry,
`cancel_task` sets that task's cancel flag while retaining both the
registry entry and the task's temp directory; calling it again is a
no-op on top of the first call, and calling it for an absent id leaves
the registry untouched (no error). -/
theorem c9_cancel_amended (tasks : List (String × DlTask)) (id : String) :
    (lookupTask tasks id = none → cancel_task tasks id = tasks) ∧
    (∀ t, lookupTask tasks id = some t →
      lookupTask (cancel_task tasks id) id = some ⟨true, t.temp_dir⟩) ∧
    cancel_task (cancel_task tasks id) id = cancel_task tasks id :=
  ⟨cancel_task_absent tasks id,
   fun t h => cancel_task_present tasks id t h,
   cancel_task_idem tasks id⟩

/-- Witness for the amended C9 on a concrete one-task registry. -/
theorem c9_cancel_amended_witness :
    lookupTask (cancel_task [("a", ⟨false, "d"⟩)] "a") "a" =
      some ⟨true, "d"⟩ ∧
    cancel_task (cancel_task [("a", ⟨false, "d"⟩)] "a") "a" =
      cancel_task [("a", ⟨false, "d"⟩)] "a" :=
  ⟨(c9_cancel_amended [("a", ⟨false, "d"⟩)] "a").2.1 ⟨false, "d"⟩ (by decide),
   (c9_cancel_amended [("a", ⟨false, "d"⟩)] "a").2.2⟩

/-- Claim C5 counterexample: `download_m3u8` stores the whole key response
body, not its first 16 bytes; a 17-byte key body is stored as 17 bytes
(in particular not equal to the body's first 16 bytes) and decrypting any
segment under it hits the `GenericArray::from_slice` length assertion,
i.e. a panic. -/
theorem c5_key_counterexample :
    (stored_key (List.replicate 17 0)).length ≠ 16 ∧
    stored_key (List.replicate 17 0) ≠ (List.replicate 17 0).take 16 ∧
    download_file_model 0 (List.replicate 16 1) "video/mp2t".toList
      (some ⟨stored_key (List.replicate 17 0), none⟩) =
      FileOutcome.panicked := by
  exact ⟨by decide, by decide, by decide⟩

/-- Claim C5 amended: the decryption key stored in `EncryptionInfo` is the
entire body returned by the key GET (not its first 16 bytes); decryption
of a non-skipped segment panics exactly when that body is not 16 bytes
long, and never panics when it is. -/
theorem c5_key_amended (body : List Nat) (index : Nat) (buffer : List Nat)
    (ct : List Char) (hb : buffer ≠ [])
    (h1 : hasPfx "text/html".toList ct = false)
    (h2 : containsSub "xml".toList ct = false) :
    stored_key body = body ∧
    (body.length ≠ 16 →
      download_file_model index buffer ct (some ⟨stored_key body, none⟩) =
        FileOutcome.panicked) ∧
    (body.length = 16 →
      download_file_model index buffer ct (some ⟨stored_key body, none⟩) ≠
        FileOutcome.panicked) := by
  refine ⟨rfl, ?_, ?_⟩ <;> intro hlen <;>
    simp only [download_file_model, stored_key, hb, if_neg, h1, h2,
      Bool.or_self, Bool.false_eq_true, if_false, Option.getD_none]
  · have hcond : ¬(body.length = 16 ∧ (derive_iv index).length = 16) :=
      fun hand => hlen hand.1
    rw [if_neg hcond]
  · rw [if_pos ⟨hlen, derive_iv_length index⟩]
    cases hcd : cbcDecryptPadded body (derive_iv index) buffer <;> simp

/-- Witness for the amended C5: a 16-byte key body is stored unchanged and
a segment decryption under it does not panic. -/
theorem c5_key_amended_witness :
    stored_key (List.replicate 16 0) = List.replicate 16 0 ∧
    download_file_model 0 [1, 2, 3] "video/mp2t".toList
      (some ⟨stored_key (List.replicate 16 0), none⟩) ≠
      FileOutcome.panicked := by
  have h := c5_key_amended (List.replicate 16 0) 0 [1, 2, 3]
    "video/mp2t".toList (by decide) (by decide) (by decide)
  exact ⟨h.1, h.2.2 (by decide)⟩

/-- Claim C2: a Skipped segment outcome appends nothing to the completion
manifest, does not increment `completed_chunks`, and is not retried (one
attempt, `Ok` future); consequently a run whose segments all resolve on
their first attempt as Success or Skipped, with at least one Skipped and
with the cancel flag never set by the user, ends with a completed count
strictly below the total and its join stores the cancel flag itself,
awaits the reporter and returns the resumable missing-segments error
without invoking remux. -/
theorem c2_skipped_accounting (oracles : List (Nat → AttemptOutcome))
    (hall : ∀ o ∈ oracles, o 1 = AttemptOutcome.success ∨
      o 1 = AttemptOutcome.skipped)
    (hsk : ∃ o ∈ oracles, o 1 = AttemptOutcome.skipped) :
    (∀ o ∈ oracles, o 1 = AttemptOutcome.skipped →
      segLoop o false = ⟨true, false, false, false, 1⟩) ∧
    completedCount (runSegments oracles false) < oracles.length ∧
    fullRunTrace oracles false =
      [Act.storeCancel, Act.awaitReporter, Act.retErrMissing] := by
  obtain ⟨a1, a2, a3, a4⟩ := c2aux oracles hall
  refine ⟨fun o _ h => segLoop_skipped o h, a4 hsk, ?_⟩
  unfold fullRunTrace
  rw [a1, a2]
  simp only [joinTrace, Bool.false_or, Bool.true_eq_false, if_false]
  rw [if_pos (Nat.ne_of_lt (a4 hsk))]
  rfl

/-- Witness for C2 on a two-segment run whose second segment is skipped at
the first attempt. -/
theorem c2_skipped_accounting_witness :
    completedCount (runSegments
      [fun _ => AttemptOutcome.success, fun _ => AttemptOutcome.skipped]
      false) < 2 ∧
    fullRunTrace
      [fun _ => AttemptOutcome.success, fun _ => AttemptOutcome.skipped]
      false = [Act.storeCancel, Act.awaitReporter, Act.retErrMissing] := by
  have hall : ∀ o ∈ [fun _ => AttemptOutcome.success,
      fun _ => AttemptOutcome.skipped], o 1 = AttemptOutcome.success ∨
      o 1 = AttemptOutcome.skipped := by
    intro o ho
    rcases List.mem_cons.mp ho with rfl | ho'
    · exact Or.inl rfl
    · rcases List.mem_cons.mp ho' with rfl | ho''
      · exact Or.inr rfl
      · cases ho''
  have hsk : ∃ o ∈ [fun _ => AttemptOutcome.success,
      fun _ => AttemptOutcome.skipped], o 1 = AttemptOutcome.skipped :=
    ⟨fun _ => AttemptOutcome.skipped, by simp, rfl⟩
  exact ⟨(c2_skipped_accounting _ hall hsk).2.1,
    (c2_skipped_accounting _ hall hsk).2.2⟩

/-- Claim C10 counterexample: when a spawned segment task exhausts its
retries its future resolves to `Err`; the join propagates that error
immediately and `download_m3u8` returns without awaiting the progress
reporter, so the claimed always-await fails on this exit path. -/
theorem c10_await_counterexample :
    (segLoop (fun _ => AttemptOutcome.failA) false).ok = false ∧
    (segLoop (fun _ => AttemptOutcome.failA) false).setCancel = true ∧
    fullRunTrace [fun _ => AttemptOutcome.failA] false = [Act.retErrTask] ∧
    Act.awaitReporter ∉ fullRunTrace [fun _ => AttemptOutcome.failA] false := by
  exact ⟨by decide, by decide, by decide, by decide⟩

/-- Claim C10 amended: the scheduler awaits the progress reporter before
returning on every exit path on which all spawned segment tasks resolve
`Ok` (success, clean cancellation, and the final-check failure); but when
some segment task resolves to an error after retry exhaustion, the join
returns that error immediately without awaiting the reporter. -/
theorem c10_await_amended (oracles : List (Nat → AttemptOutcome))
    (flag : Bool) :
    ((runSegments oracles flag).all (fun r => r.ok) = true →
      Act.awaitReporter ∈ fullRunTrace oracles flag) ∧
    ((runSegments oracles flag).all (fun r => r.ok) = false →
      fullRunTrace oracles flag = [Act.retErrTask] ∧
      Act.awaitReporter ∉ fullRunTrace oracles flag) := by
  constructor
  · intro h
    unfold fullRunTrace
    rw [h]
    simp only [joinTrace]
    split_ifs <;> simp_all
  · intro h
    unfold fullRunTrace
    rw [h]
    simp [joinTrace]

/-- Witness for the amended C10: a run whose one segment succeeds awaits
the reporter, appearing in its trace. -/
theorem c10_await_amended_witness :
    Act.awaitReporter ∈ fullRunTrace [fun _ => AttemptOutcome.success] false :=
  (c10_await_amended [fun _ => AttemptOutcome.success] false).1 (by decide)

set_option maxRecDepth 10000 in
/-- Claim C8 counterexample: a manifest-listed file can have size 0.
The ciphertext of 16 zero bytes under the 16-zero-byte key and the IV
`0x041f1f0001a5322d69486707efc9fc2a` (expressible verbatim as a playlist
IV attribute) decrypts to a block of pure PKCS7 padding, so
`download_file` returns Success with empty final bytes: a 0-byte file is
written and the scheduler then appends its name to `progress.dat`
(a first-attempt Success appends and returns), contradicting the claimed
size  > 0. -/
theorem c8_empty_plaintext_counterexample :
    parse_iv_attr "0x041f1f0001a5322d69486707efc9fc2a".toList =
      some [4, 31, 31, 0, 1, 165, 50, 45, 105, 72, 103, 7, 239, 201, 252, 42] ∧
    download_file_model 0 (List.replicate 16 0) "video/mp2t".toList
      (some ⟨List.replicate 16 0,
        some [4, 31, 31, 0, 1, 165, 50, 45, 105, 72, 103, 7, 239, 201, 252, 42]⟩) =
      FileOutcome.successF [] ∧
    segLoop (fun _ => AttemptOutcome.success) false =
      ⟨true, true, true, false, 1⟩ := by
  exact ⟨by decide, by decide, by decide⟩

/-- Claim C8 amended: the scheduler appends a filename to `progress.dat`
only after a successful attempt wrote the segment's final bytes; those
bytes equal the raw body (hence are non-empty) for unencrypted segments,
and equal the PKCS7-unpadded AES-128-CBC plaintext for encrypted ones —
which is non-empty except when the plaintext is pure padding, in which
case a 0-byte file is still recorded. -/
theorem c8_manifest_amended (index : Nat) (buffer : List Nat)
    (ct : List Char) (oracle : Nat → AttemptOutcome) (flag : Bool) :
    (∀ d, download_file_model index buffer ct none = FileOutcome.successF d →
      d = buffer ∧ d ≠ []) ∧
    (∀ e d, download_file_model index buffer ct (some e) =
        FileOutcome.successF d →
      cbcDecryptPadded e.key (e.iv.getD (derive_iv index)) buffer = some d) ∧
    ((segLoop oracle flag).appended = true →
      (segLoop oracle flag).ok = true ∧
        ∃ k, oracle k = AttemptOutcome.success) := by
  refine ⟨?_, ?_, segLoopAux_appended oracle flag 99 1⟩
  · intro d h
    unfold download_file_model at h
    by_cases hb : buffer = []
    · simp [hb] at h
    · rw [if_neg hb] at h
      split_ifs at h with hct
      dsimp only at h
      cases h
      exact ⟨rfl, hb⟩
  · intro e d h
    unfold download_file_model at h
    by_cases hb : buffer = []
    · simp [hb] at h
    · rw [if_neg hb] at h
      split_ifs at h with hct
      dsimp only at h
      split_ifs at h with hlen
      cases hcd : cbcDecryptPadded e.key (e.iv.getD (derive_iv index))
          buffer with
      | none => rw [hcd] at h; cases h
      | some d' =>
        rw [hcd] at h
        cases h
        rfl

/-- Witness for the amended C8: an unencrypted non-empty body comes back
as a Success whose written bytes are the body itself, non-empty. -/
theorem c8_manifest_amended_witness :
    download_file_model 0 [1, 2, 3] "video/mp2t".toList none =
      FileOutcome.successF [1, 2, 3] ∧ ([1, 2, 3] : List Nat) ≠ [] := by
  have h := (c8_manifest_amended 0 [1, 2, 3] "video/mp2t".toList
    (fun _ => AttemptOutcome.success) false).1 [1, 2, 3] (by decide)
  exact ⟨by decide, h.2⟩

end M3u8
